import Mathlib

/-!
Shallow embedding of the `simple-state` reactive value container
(`src/index.ts`) and proofs of the specification claims about it.

Modelling conventions:
* JavaScript runtime values are modelled by `JSVal`.  Composite (object-like)
  values carry an abstract runtime shape and a heap reference, so that
  reference identity (`===` on objects) is equality of references while
  structural equality compares the heap content at the two references.
* The heap maps references to an abstract structural content (`Nat`); the
  host primitive `structuredClone` is modelled as allocating a fresh
  reference carrying the same content, and failing on the runtime shapes it
  cannot represent (promises, weak collections), exactly as the source
  relies on.
* `queueMicrotask` deferral is modelled by the `_dispatchScheduled` flag
  plus an explicit `runFlush` step: `set` never invokes a callback itself;
  callbacks run only when the deferred flush step is executed.
* Subscriber callbacks are user code, not part of the repository; we model
  the family of callbacks needed by the claims: callbacks that do nothing to
  the registry, callbacks that subscribe a new callback, and callbacks that
  unsubscribe an id (catching a potential error locally).
* A JavaScript `Map` keeps insertion-ordered slots in which deletion clears
  the slot without renumbering later slots, insertion of a fresh key appends,
  and `forEach` iterates the live slot list by position (entries appended
  during iteration are visited, entries cleared before being reached are
  skipped).  The registry is therefore a `List (Option (Int × Callback))`.
-/

namespace SimpleState

/-- Runtime shapes of JavaScript composite (object-like) values that the
claims need to distinguish. -/
inductive ObjShape where
  | plain
  | fn
  | arr
  | mapO
  | setO
  | date
  | regex
  | promise
  | weakMap
  | weakSet
deriving DecidableEq

/-- Whether the host `structuredClone` primitive can copy a value of this
runtime shape.  Promises and weak collections are not structured-cloneable;
functions are not either, but the source never hands a function to
`structuredClone`. -/
def ObjShape.cloneable : ObjShape → Bool
  | .plain => true
  | .arr => true
  | .mapO => true
  | .setO => true
  | .date => true
  | .regex => true
  | .fn => false
  | .promise => false
  | .weakMap => false
  | .weakSet => false

/-- The possible results of the JavaScript `typeof` operator. -/
inductive JSType where
  | undefinedT
  | objectT
  | booleanT
  | numberT
  | stringT
  | functionT
  | symbolT
  | bigintT
deriving DecidableEq

/-- A JavaScript runtime value.  Composite values are a shape plus a heap
reference; reference identity of composites is equality of references. -/
inductive JSVal where
  | undef
  | nullV
  | boolV (b : Bool)
  | num (n : Int)
  | str (s : String)
  | bigintV (n : Int)
  | sym (n : Nat)
  | obj (shape : ObjShape) (ref : Nat)
deriving DecidableEq

/-- The JavaScript `typeof` operator (`typeof null` is `"object"`). -/
def typeof : JSVal → JSType
  | .undef => .undefinedT
  | .nullV => .objectT
  | .boolV _ => .booleanT
  | .num _ => .numberT
  | .str _ => .stringT
  | .bigintV _ => .bigintT
  | .sym _ => .symbolT
  | .obj s _ => if s = .fn then .functionT else .objectT

/-- `isMutable` from `src/index.ts`: null is not mutable, otherwise a value
is mutable when its `typeof` is `"object"` or `"function"`. -/
def isMutable (input : JSVal) : Bool :=
  if input = .nullV then false
  else if typeof input = .objectT ∨ typeof input = .functionT then true
  else false

/-- The `MutableTypes` constant object from `src/index.ts`. -/
inductive MutableType where
  | OBJECT
  | FUNCTION
  | ARRAY
  | MAP
  | SET
  | DATE
  | REGEX
deriving DecidableEq

/-- The `Array.isArray` test. -/
def isArrayVal : JSVal → Bool
  | .obj .arr _ => true
  | _ => false

/-- The `instanceof Map` test. -/
def instanceOfMap : JSVal → Bool
  | .obj .mapO _ => true
  | _ => false

/-- The `instanceof Set` test. -/
def instanceOfSet : JSVal → Bool
  | .obj .setO _ => true
  | _ => false

/-- The `instanceof Date` test. -/
def instanceOfDate : JSVal → Bool
  | .obj .date _ => true
  | _ => false

/-- The `instanceof RegExp` test. -/
def instanceOfRegExp : JSVal → Bool
  | .obj .regex _ => true
  | _ => false

/-- `getMutableDataType` from `src/index.ts`: classify a value into the
fine-grained composite kinds, checking function, array, Map, Set, Date,
RegExp in order and falling back to OBJECT for anything whose `typeof` is
`"object"` (note `typeof null` is `"object"`). -/
def getMutableDataType (input : JSVal) : Option MutableType :=
  if typeof input = .functionT then some .FUNCTION
  else if isArrayVal input then some .ARRAY
  else if instanceOfMap input then some .MAP
  else if instanceOfSet input then some .SET
  else if instanceOfDate input then some .DATE
  else if instanceOfRegExp input then some .REGEX
  else if typeof input = .objectT then some .OBJECT
  else none

/-- The abstract heap: structural content of each composite reference, plus
the next fresh reference. -/
structure Heap where
  data : Nat → Nat
  next : Nat

/-- Allocate a fresh reference holding content `d`. -/
def Heap.alloc (h : Heap) (d : Nat) : Heap × Nat :=
  (⟨Function.update h.data h.next d, h.next + 1⟩, h.next)

/-- Mutate the content stored at reference `r` (external mutation of a
composite value that the caller holds by reference). -/
def Heap.write (h : Heap) (r : Nat) (d : Nat) : Heap :=
  ⟨Function.update h.data r d, h.next⟩

/-- A value is a valid reference into the heap (its reference, if any, has
already been allocated). -/
def validRefB (h : Heap) : JSVal → Bool
  | .obj _ r => decide (r < h.next)
  | _ => true

/-- Structural (deep) equality of two values under a heap: composites are
deeply equal when they have the same shape and the same structural content;
primitives when they are the same value. -/
def structEqB (h : Heap) : JSVal → JSVal → Bool
  | .obj s r, .obj s' r' => decide (s = s') && decide (h.data r = h.data r')
  | v, w => decide (v = w)

/-- The message the host deep-copy primitive reports when it cannot copy a
value of the given shape (abstracted; only its existence matters). -/
def cloneErrorMsg (_s : ObjShape) : String :=
  "DataCloneError"

/-- Model of the host `structuredClone` primitive: primitives are returned
unchanged; cloneable composites get a fresh reference with the same
structural content; unclonable shapes fail. -/
def structuredClone (v : JSVal) (h : Heap) : Except String (JSVal × Heap) :=
  match v with
  | .obj s r =>
    if s.cloneable then
      let p := h.alloc (h.data r)
      .ok (.obj s p.2, p.1)
    else .error (cloneErrorMsg s)
  | v => .ok (v, h)

/-- The five error kinds thrown by the container (section 7 of the spec),
carrying the data interpolated into their messages. -/
inductive JSError where
  | incompatibleType (expected received : JSType)
  | incompatibleMutableType (expected received : Option MutableType)
  | cloneFailure (message : String)
  | invalidUnsubscribeInput (received : JSType)
  | invalidSubscriptionId (id : Int)
deriving DecidableEq

/-- The family of subscriber callbacks the claims quantify over: a callback
that does not touch the registry, a callback that subscribes another
callback, and a callback that unsubscribes an id (trapping a potential
error locally, as callbacks are free to do). -/
inductive Callback where
  | pure
  | doSub (cb : Callback)
  | doUnsub (id : Int)
deriving DecidableEq

/-- The closure state of one container returned by `newSimpleState`. -/
structure Container where
  _type : JSType
  _mutableType : Option MutableType
  _shouldClone : Bool
  _suppressWarnings : Bool
  _state : JSVal
  _subscribers : List (Option (Int × Callback))
  _nextId : Int
  _dispatchScheduled : Bool
deriving DecidableEq

/-- The `SimpleStateOptions` record; `none` fields were omitted by the
caller. -/
structure SimpleStateOptions where
  clone : Option Bool
  suppressWarnings : Option Bool
deriving DecidableEq

/-- The two advisory console warnings of `newSimpleState`. -/
inductive Warning where
  | functionCloneWarning
  | cloneDisabledWarning
deriving DecidableEq

/-- `newSimpleState` from `src/index.ts`: capture the primitive kind, the
composite kind (when the initial value is mutable), resolve options to
their defaults, emit the advisory warnings, and start with the initial
value, an empty registry, id counter 0 and no pending dispatch. -/
def newSimpleState (initial : JSVal) (options : Option SimpleStateOptions) :
    Container × List Warning :=
  let t := typeof initial
  let mt := if isMutable initial then getMutableDataType initial else none
  let shouldClone := (options.bind fun o => o.clone).getD true
  let suppress := (options.bind fun o => o.suppressWarnings).getD false
  let w1 : List Warning :=
    if t = .functionT ∧ suppress = false then [.functionCloneWarning] else []
  let w2 : List Warning :=
    if shouldClone = false ∧ isMutable initial = true ∧ suppress = false then
      [.cloneDisabledWarning]
    else []
  (⟨t, mt, shouldClone, suppress, initial, [], 0, false⟩, w1 ++ w2)

/-- The `share` closure: return the state by reference when cloning is
disabled, the state is not mutable, or the captured kind is function-like;
otherwise deep-copy it via `structuredClone`, wrapping a copy failure in
the "Unable to clone state" error. -/
def share (c : Container) (h : Heap) : Except JSError (JSVal × Heap) :=
  if c._shouldClone = false ∨ isMutable c._state = false then .ok (c._state, h)
  else if c._type = .functionT then .ok (c._state, h)
  else
    match structuredClone c._state h with
    | .ok res => .ok res
    | .error msg => .error (.cloneFailure ("Unable to clone state: " ++ msg))

/-- The public `get` operation: exactly `share`. -/
def get (c : Container) (h : Heap) : Except JSError (JSVal × Heap) :=
  share c h

/-- The `scheduleDispatch` closure: queue a deferred flush only when one is
not already pending. -/
def scheduleDispatch (c : Container) : Container :=
  if c._dispatchScheduled = false then { c with _dispatchScheduled := true }
  else c

/-- The public `set` operation: reject a `typeof` mismatch, then (for
mutable input) a composite-kind mismatch, then write and schedule a flush
only when the input is not reference-identical to the current state. -/
def set (c : Container) (input : JSVal) : Except JSError Container :=
  if typeof input ≠ c._type then
    .error (.incompatibleType c._type (typeof input))
  else if isMutable input = true ∧ getMutableDataType input ≠ c._mutableType then
    .error (.incompatibleMutableType c._mutableType (getMutableDataType input))
  else if c._state ≠ input then
    .ok (scheduleDispatch { c with _state := input })
  else .ok c

/-- JavaScript `Map.prototype.has` on the slot list. -/
def mapHas (m : List (Option (Int × Callback))) (k : Int) : Bool :=
  m.any fun e =>
    match e with
    | some (k', _) => decide (k' = k)
    | none => false

/-- JavaScript `Map.prototype.set` on the slot list: overwrite in place when
the key is present, otherwise append a fresh slot. -/
def mapSet (m : List (Option (Int × Callback))) (k : Int) (cb : Callback) :
    List (Option (Int × Callback)) :=
  if mapHas m k then
    m.map fun e =>
      match e with
      | some (k', cb') => if k' = k then some (k, cb) else some (k', cb')
      | none => none
  else m ++ [some (k, cb)]

/-- JavaScript `Map.prototype.delete` on the slot list: clear the slot of
the key without renumbering the later slots (this is what makes entries
deleted mid-iteration skipped and entries appended mid-iteration visited,
as the ECMAScript `Map` iteration protocol prescribes). -/
def mapDelete : List (Option (Int × Callback)) → Int → List (Option (Int × Callback))
  | [], _ => []
  | some (k', cb) :: rest, k =>
    if k' = k then none :: rest else some (k', cb) :: mapDelete rest k
  | none :: rest, k => none :: mapDelete rest k

/-- The ids of the live (non-deleted) registry entries in insertion order. -/
def activeIds (m : List (Option (Int × Callback))) : List Int :=
  m.filterMap fun e => e.map Prod.fst

/-- Every live registry entry is a callback that does not touch the
registry. -/
def allPure (m : List (Option (Int × Callback))) : Bool :=
  m.all fun e =>
    match e with
    | some (_, cb) => decide (cb = Callback.pure)
    | none => true

/-- The public `subscribe` operation: hand out the next id, insert the
callback, bump the counter. -/
def subscribe (c : Container) (callback : Callback) : Container × Int :=
  let id := c._nextId
  ({ c with
      _subscribers := mapSet c._subscribers id callback
      _nextId := id + 1 }, id)

/-- The public `unsubscribe` operation: reject a non-numeric input, then an
id with no live registry entry, otherwise clear that entry. -/
def unsubscribe (c : Container) (input : JSVal) : Except JSError Container :=
  if typeof input ≠ .numberT then
    .error (.invalidUnsubscribeInput (typeof input))
  else
    match input with
    | .num id =>
      if mapHas c._subscribers id then
        .ok { c with _subscribers := mapDelete c._subscribers id }
      else .error (.invalidSubscriptionId id)
    | _ => .error (.invalidUnsubscribeInput (typeof input))

/-- One delivered notification: the subscription id invoked and the value it
received. -/
abbrev Event := Int × JSVal

/-- The outcome of running the deferred flush: the container and heap
afterwards, the notifications delivered in order, and the error that
aborted delivery, if any (the dispatch loop has no per-subscriber trap). -/
structure DispatchResult where
  container : Container
  heap : Heap
  events : List Event
  err : Option JSError

/-- Effect of a subscriber callback on the container (the modelled callback
family: do nothing, subscribe a callback, or unsubscribe an id trapping a
potential error). -/
def runCallback (cb : Callback) (c : Container) : Container :=
  match cb with
  | .pure => c
  | .doSub cb' => (subscribe c cb').1
  | .doUnsub id =>
    match unsubscribe c (.num id) with
    | .ok c' => c'
    | .error _ => c

/-- The body of `dispatch`: `_subscribers.forEach(cb => cb(share()))` with
live `Map` iteration — the loop walks the slot list by position against the
current registry, so slots cleared before being reached are skipped and
slots appended during the loop are visited.  `share` is evaluated anew for
every delivery; a `share` failure aborts the loop.  `fuel` only bounds the
recursion; every theorem supplies enough of it. -/
def dispatchLoop : Nat → Nat → Container → Heap → List Event → Option DispatchResult
  | 0, _, _, _, _ => none
  | Nat.succ fuel, i, c, h, tr =>
    if hlt : i < c._subscribers.length then
      match c._subscribers.get ⟨i, hlt⟩ with
      | none => dispatchLoop fuel (i + 1) c h tr
      | some (id, cb) =>
        match share c h with
        | .error e => some ⟨c, h, tr, some e⟩
        | .ok (v, h') =>
          dispatchLoop fuel (i + 1) (runCallback cb c) h' (tr ++ [(id, v)])
    else some ⟨c, h, tr, none⟩

/-- The deferred microtask: if a flush is pending, clear the pending flag
first and then run `dispatch`; otherwise nothing happens. -/
def runFlush (fuel : Nat) (c : Container) (h : Heap) : Option DispatchResult :=
  if c._dispatchScheduled then
    dispatchLoop fuel 0 { c with _dispatchScheduled := false } h []
  else some ⟨c, h, [], none⟩

/-- `share` (hence `get` and every notification delivery) succeeds on this
container: cloning is off, or the state is not mutable, or the captured
kind is function-like, or the state has a cloneable shape. -/
def shareTotal (c : Container) : Bool :=
  if c._shouldClone = false ∨ isMutable c._state = false then true
  else if c._type = .functionT then true
  else
    match c._state with
    | .obj s _ => s.cloneable
    | _ => true

/-- A sequence of `set` calls within one synchronous segment (stopping at
the first thrown error). -/
def setAll (c : Container) : List JSVal → Except JSError Container
  | [] => .ok c
  | v :: vs =>
    match set c v with
    | .ok c' => setAll c' vs
    | .error e => .error e

/-- One call in a sequence of subscribe/unsubscribe calls. -/
inductive Op where
  | sub (cb : Callback)
  | unsub (input : JSVal)

/-- Run a sequence of subscribe/unsubscribe calls, collecting the ids that
the subscribe calls return.  A throwing unsubscribe leaves the container
unchanged (the caller catches the exception and goes on). -/
def runOps (c : Container) : List Op → Container × List Int
  | [] => (c, [])
  | .sub cb :: ops =>
    let p := subscribe c cb
    let r := runOps p.1 ops
    (r.1, p.2 :: r.2)
  | .unsub v :: ops =>
    match unsubscribe c v with
    | .ok c' => runOps c' ops
    | .error _ => runOps c ops

/-- The number of subscribe calls in a call sequence. -/
def countSubs : List Op → Nat
  | [] => 0
  | .sub _ :: ops => countSubs ops + 1
  | .unsub _ :: ops => countSubs ops

end SimpleState

namespace SimpleState

theorem structEqB_refl (h : Heap) (v : JSVal) : structEqB h v v = true := by
  cases v <;> simp [structEqB]

theorem isMutable_obj (s : ObjShape) (r : Nat) : isMutable (.obj s r) = true := by
  simp only [isMutable, typeof]
  split <;> simp_all

theorem isMutable_eq_true {v : JSVal} (hv : isMutable v = true) :
    ∃ s r, v = JSVal.obj s r := by
  cases v <;> simp_all [isMutable, typeof]

theorem validRefB_mono {h h' : Heap} (hle : h.next ≤ h'.next) {v : JSVal}
    (hv : validRefB h v = true) : validRefB h' v = true := by
  cases v <;> simp_all [validRefB]
  omega

theorem structEqB_mono {h h' : Heap}
    (hag : ∀ r, r < h.next → h'.data r = h.data r) :
    ∀ {v w : JSVal}, validRefB h v = true → validRefB h w = true →
      structEqB h' v w = structEqB h v w := by
  intro v w hv hw
  cases v <;> cases w <;> try rfl
  case obj.obj s r s' r' =>
    simp only [validRefB, decide_eq_true_eq] at hv hw
    simp only [structEqB, hag r hv, hag r' hw]

theorem share_total_spec (c : Container) (h : Heap) (hs : shareTotal c = true) :
    ∃ v h', share c h = .ok (v, h') ∧
      h.next ≤ h'.next ∧
      (∀ r, r < h.next → h'.data r = h.data r) ∧
      (validRefB h c._state = true →
        structEqB h' v c._state = true ∧ validRefB h' v = true) := by
  by_cases h1 : c._shouldClone = false ∨ isMutable c._state = false
  · refine ⟨c._state, h, ?_, le_refl _, fun r _ => rfl,
      fun hv => ⟨structEqB_refl h _, hv⟩⟩
    simp [share, h1]
  · by_cases h2 : c._type = JSType.functionT
    · refine ⟨c._state, h, ?_, le_refl _, fun r _ => rfl,
        fun hv => ⟨structEqB_refl h _, hv⟩⟩
      rw [share, if_neg h1, if_pos h2]
    · have hmut : isMutable c._state = true := by
        cases hm : isMutable c._state with
        | true => rfl
        | false => exact absurd (Or.inr hm) h1
      obtain ⟨s, r, hstate⟩ := isMutable_eq_true hmut
      have hcl : s.cloneable = true := by
        rw [shareTotal, if_neg h1, if_neg h2, hstate] at hs
        exact hs
      refine ⟨JSVal.obj s h.next,
        ⟨Function.update h.data h.next (h.data r), h.next + 1⟩, ?_, ?_, ?_, ?_⟩
      · rw [share, if_neg h1, if_neg h2, hstate]
        simp [structuredClone, hcl, Heap.alloc]
      · exact Nat.le_succ _
      · intro r' hr'
        exact Function.update_noteq (Nat.ne_of_lt hr') _ _
      · intro hv
        rw [hstate] at hv
        simp only [validRefB, decide_eq_true_eq] at hv
        constructor
        · rw [hstate]
          simp only [structEqB, Bool.and_eq_true, decide_eq_true_eq]
          exact ⟨trivial, by
            rw [Function.update_same, Function.update_noteq (Nat.ne_of_lt hv)]⟩
        · simp [validRefB]

theorem activeIds_nil : activeIds [] = [] := rfl

theorem activeIds_cons_none (l : List (Option (Int × Callback))) :
    activeIds (none :: l) = activeIds l := by
  simp [activeIds]

theorem activeIds_cons_some (id : Int) (cb : Callback)
    (l : List (Option (Int × Callback))) :
    activeIds (some (id, cb) :: l) = id :: activeIds l := by
  simp [activeIds]

theorem drop_eq_get_cons {α : Type} {l : List α} {i : Nat} (h : i < l.length) :
    l.drop i = l.get ⟨i, h⟩ :: l.drop (i + 1) := by
  rw [List.drop_eq_getElem_cons h]
  simp [List.get_eq_getElem]

theorem allPure_get {m : List (Option (Int × Callback))} (hp : allPure m = true)
    {i : Nat} (h : i < m.length) {id : Int} {cb : Callback}
    (hget : m.get ⟨i, h⟩ = some (id, cb)) : cb = Callback.pure := by
  have hmem : some (id, cb) ∈ m := by
    rw [← hget]; exact List.get_mem m i h
  have := List.all_eq_true.mp hp _ hmem
  simpa using this

theorem dispatchLoop_stop {fuel i : Nat} {c : Container} {h : Heap}
    {tr : List Event} (hge : ¬ i < c._subscribers.length) :
    dispatchLoop (fuel + 1) i c h tr = some ⟨c, h, tr, none⟩ := by
  rw [dispatchLoop]
  rw [dif_neg hge]

theorem dispatchLoop_step_none {fuel i : Nat} {c : Container} {h : Heap}
    {tr : List Event} (hlt : i < c._subscribers.length)
    (hget : c._subscribers.get ⟨i, hlt⟩ = none) :
    dispatchLoop (fuel + 1) i c h tr = dispatchLoop fuel (i + 1) c h tr := by
  rw [dispatchLoop]
  rw [dif_pos hlt, hget]

theorem dispatchLoop_step_some {fuel i : Nat} {c : Container} {h h' : Heap}
    {tr : List Event} (hlt : i < c._subscribers.length) {id : Int}
    {cb : Callback} (hget : c._subscribers.get ⟨i, hlt⟩ = some (id, cb))
    {v : JSVal} (hsh : share c h = .ok (v, h')) :
    dispatchLoop (fuel + 1) i c h tr =
      dispatchLoop fuel (i + 1) (runCallback cb c) h' (tr ++ [(id, v)]) := by
  rw [dispatchLoop]
  rw [dif_pos hlt, hget, hsh]

theorem dispatchLoop_step_err {fuel i : Nat} {c : Container} {h : Heap}
    {tr : List Event} (hlt : i < c._subscribers.length) {id : Int}
    {cb : Callback} (hget : c._subscribers.get ⟨i, hlt⟩ = some (id, cb))
    {e : JSError} (hsh : share c h = .error e) :
    dispatchLoop (fuel + 1) i c h tr = some ⟨c, h, tr, some e⟩ := by
  rw [dispatchLoop]
  rw [dif_pos hlt, hget, hsh]

end SimpleState

namespace SimpleState

theorem dispatchLoop_pure (fuel : Nat) :
    ∀ (i : Nat) (c : Container) (h : Heap) (tr : List Event),
      allPure c._subscribers = true → shareTotal c = true →
      validRefB h c._state = true →
      c._subscribers.length - i < fuel →
      ∃ res rest, dispatchLoop fuel i c h tr = some res ∧
        res.container = c ∧ res.err = none ∧ res.events = tr ++ rest ∧
        rest.map Prod.fst = activeIds (c._subscribers.drop i) ∧
        (∀ ev ∈ rest, structEqB res.heap ev.2 c._state = true) ∧
        h.next ≤ res.heap.next ∧
        (∀ r, r < h.next → res.heap.data r = h.data r) := by
  induction fuel with
  | zero => intro i c h tr _ _ _ hf; omega
  | succ fuel ih =>
    intro i c h tr hp hs hv hf
    by_cases hlt : i < c._subscribers.length
    · rcases hget : c._subscribers.get ⟨i, hlt⟩ with _ | ⟨id, cb⟩
      · rw [dispatchLoop_step_none hlt hget]
        obtain ⟨res, rest, h1, h2, h3, h4, h5, h6, h7, h8⟩ :=
          ih (i + 1) c h tr hp hs hv (by omega)
        refine ⟨res, rest, h1, h2, h3, h4, ?_, h6, h7, h8⟩
        rw [drop_eq_get_cons hlt, hget, activeIds_cons_none]
        exact h5
      · have hpure : cb = Callback.pure := allPure_get hp hlt hget
        obtain ⟨v, h', hsh, hle1, hag1, himp⟩ := share_total_spec c h hs
        obtain ⟨hveq, hvv⟩ := himp hv
        rw [dispatchLoop_step_some hlt hget hsh, hpure]
        simp only [runCallback]
        have hv' : validRefB h' c._state = true := validRefB_mono hle1 hv
        obtain ⟨res, rest, h1, h2, h3, h4, h5, h6, h7, h8⟩ :=
          ih (i + 1) c h' (tr ++ [(id, v)]) hp hs hv' (by omega)
        refine ⟨res, (id, v) :: rest, h1, h2, h3, ?_, ?_, ?_, ?_, ?_⟩
        · rw [h4]; simp
        · rw [drop_eq_get_cons hlt, hget, activeIds_cons_some]
          simp [h5]
        · intro ev hev
          rcases List.mem_cons.mp hev with hev | hev
          · subst hev
            rw [structEqB_mono h8 hvv hv']
            exact hveq
          · exact h6 ev hev
        · exact le_trans hle1 h7
        · intro r hr
          rw [h8 r (lt_of_lt_of_le hr hle1), hag1 r hr]
    · rw [dispatchLoop_stop hlt]
      refine ⟨⟨c, h, tr, none⟩, [], rfl, rfl, rfl, by simp, ?_, by simp,
        le_refl _, fun r _ => rfl⟩
      rw [List.drop_eq_nil_of_le (by omega)]
      rfl

theorem runFlush_pure (c : Container) (h : Heap)
    (hp : allPure c._subscribers = true) (hs : shareTotal c = true)
    (hv : validRefB h c._state = true) (hd : c._dispatchScheduled = true) :
    ∃ res, runFlush (c._subscribers.length + 1) c h = some res ∧
      res.container = { c with _dispatchScheduled := false } ∧
      res.err = none ∧
      res.events.map Prod.fst = activeIds c._subscribers ∧
      (∀ ev ∈ res.events, structEqB res.heap ev.2 c._state = true) := by
  have hp' : allPure ({ c with _dispatchScheduled := false } : Container)._subscribers = true := hp
  have hs' : shareTotal { c with _dispatchScheduled := false } = true := hs
  have hv' : validRefB h ({ c with _dispatchScheduled := false } : Container)._state = true := hv
  obtain ⟨res, rest, h1, h2, h3, h4, h5, h6, _, _⟩ :=
    dispatchLoop_pure (c._subscribers.length + 1) 0
      { c with _dispatchScheduled := false } h [] hp' hs' hv' (by simp)
  refine ⟨res, ?_, h2, h3, ?_, ?_⟩
  · rw [runFlush, if_pos hd]
    exact h1
  · rw [h4]
    simpa using h5
  · intro ev hev
    rw [h4] at hev
    simp only [List.nil_append] at hev
    exact h6 ev hev


theorem scheduleDispatch_eq (c : Container) :
    scheduleDispatch c = { c with _dispatchScheduled := true } := by
  rw [scheduleDispatch]
  split
  · rfl
  · next hf =>
    have ht : c._dispatchScheduled = true := by
      cases hb : c._dispatchScheduled
      · exact absurd hb hf
      · rfl
    cases c
    simp_all

theorem set_ok_checks {c : Container} {v : JSVal} {c' : Container}
    (hok : set c v = .ok c') :
    typeof v = c._type ∧
    (isMutable v = true → getMutableDataType v = c._mutableType) := by
  by_cases h1 : typeof v ≠ c._type
  · rw [set, if_pos h1] at hok
    exact absurd hok (by simp)
  · push_neg at h1
    by_cases h2 : isMutable v = true ∧ getMutableDataType v ≠ c._mutableType
    · rw [set, if_neg (by simpa using h1), if_pos h2] at hok
      exact absurd hok (by simp)
    · refine ⟨h1, fun hm => ?_⟩
      by_contra hne
      exact h2 ⟨hm, hne⟩

theorem set_ok_result {c : Container} {v : JSVal} {c' : Container}
    (hok : set c v = .ok c') :
    (v = c._state ∧ c' = c) ∨
    (v ≠ c._state ∧ c' = { c with _state := v, _dispatchScheduled := true }) := by
  obtain ⟨h1, h2⟩ := set_ok_checks hok
  rw [set, if_neg (by simpa using h1),
    if_neg (by intro hand; exact hand.2 (h2 hand.1))] at hok
  by_cases h3 : c._state ≠ v
  · right
    rw [if_pos h3, scheduleDispatch_eq] at hok
    refine ⟨fun hv => h3 hv.symm, ?_⟩
    injection hok with hok
    exact hok.symm
  · left
    push_neg at h3
    rw [if_neg (fun hne => hne h3)] at hok
    injection hok with hok
    exact ⟨h3.symm, hok.symm⟩

theorem set_ok_state {c : Container} {v : JSVal} {c' : Container}
    (hok : set c v = .ok c') : c'._state = v := by
  rcases set_ok_result hok with ⟨hv, hc⟩ | ⟨_, hc⟩
  · rw [hc, ← hv]
  · rw [hc]

theorem set_ok_frame {c : Container} {v : JSVal} {c' : Container}
    (hok : set c v = .ok c') :
    c'._subscribers = c._subscribers ∧ c'._nextId = c._nextId ∧
    c'._type = c._type ∧ c'._mutableType = c._mutableType ∧
    c'._shouldClone = c._shouldClone := by
  rcases set_ok_result hok with ⟨_, hc⟩ | ⟨_, hc⟩ <;> rw [hc] <;>
    exact ⟨rfl, rfl, rfl, rfl, rfl⟩

theorem set_ok_flag_mono {c : Container} {v : JSVal} {c' : Container}
    (hok : set c v = .ok c') (hd : c._dispatchScheduled = true) :
    c'._dispatchScheduled = true := by
  rcases set_ok_result hok with ⟨_, hc⟩ | ⟨_, hc⟩ <;> rw [hc]
  exact hd

theorem set_ok_flag_accepted {c : Container} {v : JSVal} {c' : Container}
    (hok : set c v = .ok c') (hchg : c'._state ≠ c._state) :
    c'._dispatchScheduled = true := by
  rcases set_ok_result hok with ⟨_, hc⟩ | ⟨_, hc⟩
  · exact absurd (by rw [hc]) hchg
  · rw [hc]

theorem setAll_ok_frame :
    ∀ {vs : List JSVal} {c c₁ : Container}, setAll c vs = .ok c₁ →
      c₁._subscribers = c._subscribers ∧ c₁._nextId = c._nextId ∧
      c₁._type = c._type ∧ c₁._mutableType = c._mutableType ∧
      c₁._shouldClone = c._shouldClone := by
  intro vs
  induction vs with
  | nil =>
    intro c c₁ h
    rw [setAll] at h
    injection h with h
    rw [h]
    exact ⟨rfl, rfl, rfl, rfl, rfl⟩
  | cons v vs ih =>
    intro c c₁ h
    rw [setAll] at h
    cases hset : set c v with
    | error e => rw [hset] at h; exact absurd h (by simp)
    | ok c' =>
      rw [hset] at h
      obtain ⟨f1, f2, f3, f4, f5⟩ := set_ok_frame hset
      obtain ⟨g1, g2, g3, g4, g5⟩ := ih h
      exact ⟨g1.trans f1, g2.trans f2, g3.trans f3, g4.trans f4, g5.trans f5⟩

theorem setAll_ok_last :
    ∀ {vs : List JSVal} {c c₁ : Container} {v : JSVal},
      setAll c vs = .ok c₁ → vs.getLast? = some v → c₁._state = v := by
  intro vs
  induction vs with
  | nil => intro c c₁ v h hl; simp at hl
  | cons v' vs ih =>
    intro c c₁ v h hl
    rw [setAll] at h
    cases hset : set c v' with
    | error e => rw [hset] at h; exact absurd h (by simp)
    | ok c' =>
      rw [hset] at h
      cases vs with
      | nil =>
        simp only [setAll, Except.ok.injEq] at h
        simp only [List.getLast?_singleton, Option.some.injEq] at hl
        rw [← h, ← hl]
        exact set_ok_state hset
      | cons v'' vs' =>
        rw [List.getLast?_cons_cons] at hl
        exact ih h hl

theorem setAll_flag_mono :
    ∀ {vs : List JSVal} {c c₁ : Container}, setAll c vs = .ok c₁ →
      c._dispatchScheduled = true → c₁._dispatchScheduled = true := by
  intro vs
  induction vs with
  | nil =>
    intro c c₁ h hd
    rw [setAll] at h
    injection h with h
    rw [← h]
    exact hd
  | cons v vs ih =>
    intro c c₁ h hd
    rw [setAll] at h
    cases hset : set c v with
    | error e => rw [hset] at h; exact absurd h (by simp)
    | ok c' =>
      rw [hset] at h
      exact ih h (set_ok_flag_mono hset hd)

theorem setAll_ok_flag :
    ∀ {vs : List JSVal} {c c₁ : Container}, setAll c vs = .ok c₁ →
      c₁._state ≠ c._state → c₁._dispatchScheduled = true := by
  intro vs
  induction vs with
  | nil =>
    intro c c₁ h hchg
    rw [setAll] at h
    injection h with h
    exact absurd (by rw [h]) hchg
  | cons v vs ih =>
    intro c c₁ h hchg
    rw [setAll] at h
    cases hset : set c v with
    | error e => rw [hset] at h; exact absurd h (by simp)
    | ok c' =>
      rw [hset] at h
      rcases set_ok_result hset with ⟨_, hc⟩ | ⟨_, hc⟩
      · rw [hc] at h
        exact ih h hchg
      · have : c'._dispatchScheduled = true := by rw [hc]
        exact setAll_flag_mono h this

end SimpleState

namespace SimpleState

theorem mapHas_cons_some (k' : Int) (cb : Callback)
    (rest : List (Option (Int × Callback))) (k : Int) :
    mapHas (some (k', cb) :: rest) k = (decide (k' = k) || mapHas rest k) := by
  simp [mapHas]

theorem mapHas_cons_none (rest : List (Option (Int × Callback))) (k : Int) :
    mapHas (none :: rest) k = mapHas rest k := by
  simp [mapHas]

theorem mapHas_iff (m : List (Option (Int × Callback))) (k : Int) :
    mapHas m k = true ↔ k ∈ activeIds m := by
  induction m with
  | nil => simp [mapHas, activeIds]
  | cons e rest ih =>
    cases e with
    | none =>
      rw [mapHas_cons_none, activeIds_cons_none]
      exact ih
    | some p =>
      obtain ⟨k', cb⟩ := p
      rw [mapHas_cons_some, activeIds_cons_some]
      simp only [Bool.or_eq_true, decide_eq_true_eq, List.mem_cons, ih]
      constructor
      · rintro (hk | hk)
        · exact Or.inl hk.symm
        · exact Or.inr hk
      · rintro (hk | hk)
        · exact Or.inl hk.symm
        · exact Or.inr hk

theorem activeIds_mapDelete (m : List (Option (Int × Callback))) (k : Int) :
    activeIds (mapDelete m k) = (activeIds m).erase k := by
  induction m with
  | nil => rfl
  | cons e rest ih =>
    cases e with
    | none =>
      rw [mapDelete, activeIds_cons_none, activeIds_cons_none, ih]
    | some p =>
      obtain ⟨k', cb⟩ := p
      rw [mapDelete, activeIds_cons_some]
      by_cases hk : k' = k
      · rw [if_pos hk, activeIds_cons_none, hk, List.erase_cons_head]
      · rw [if_neg hk, activeIds_cons_some, ih,
          List.erase_cons_tail (by simpa using hk)]

theorem allPure_mapDelete {m : List (Option (Int × Callback))} (k : Int)
    (hp : allPure m = true) : allPure (mapDelete m k) = true := by
  induction m with
  | nil => rfl
  | cons e rest ih =>
    simp only [allPure, List.all_cons, Bool.and_eq_true] at hp
    cases e with
    | none =>
      rw [mapDelete]
      simp only [allPure, List.all_cons, Bool.and_eq_true]
      exact ⟨trivial, ih hp.2⟩
    | some p =>
      obtain ⟨k', cb⟩ := p
      rw [mapDelete]
      by_cases hk : k' = k
      · rw [if_pos hk]
        simp only [allPure, List.all_cons, Bool.and_eq_true]
        exact ⟨trivial, hp.2⟩
      · rw [if_neg hk]
        simp only [allPure, List.all_cons, Bool.and_eq_true]
        exact ⟨hp.1, ih hp.2⟩

theorem unsubscribe_num_ok {c : Container} {id : Int}
    (hhas : mapHas c._subscribers id = true) :
    unsubscribe c (.num id) =
      .ok { c with _subscribers := mapDelete c._subscribers id } := by
  simp [unsubscribe, typeof, hhas]

theorem unsubscribe_num_missing {c : Container} {id : Int}
    (hhas : mapHas c._subscribers id = false) :
    unsubscribe c (.num id) = .error (.invalidSubscriptionId id) := by
  simp [unsubscribe, typeof, hhas]

theorem unsubscribe_not_num {c : Container} {v : JSVal}
    (hnum : typeof v ≠ .numberT) :
    unsubscribe c v = .error (.invalidUnsubscribeInput (typeof v)) := by
  cases v <;> simp [unsubscribe, typeof] at hnum ⊢

theorem runOps_sub (c : Container) (cb : Callback) (ops : List Op) :
    runOps c (.sub cb :: ops) =
      ((runOps (subscribe c cb).1 ops).1,
        (subscribe c cb).2 :: (runOps (subscribe c cb).1 ops).2) := rfl

theorem runOps_unsub_ok {c c' : Container} {v : JSVal} (ops : List Op)
    (h : unsubscribe c v = .ok c') :
    runOps c (.unsub v :: ops) = runOps c' ops := by
  simp only [runOps, h]

theorem runOps_unsub_err {c : Container} {v : JSVal} {e : JSError}
    (ops : List Op) (h : unsubscribe c v = .error e) :
    runOps c (.unsub v :: ops) = runOps c ops := by
  simp only [runOps, h]

theorem typeof_obj_ne_num (s : ObjShape) (r : Nat) :
    typeof (JSVal.obj s r) ≠ .numberT := by
  rw [typeof]
  split <;> simp

theorem unsubscribe_ok_frame {c : Container} {v : JSVal} {c' : Container}
    (h : unsubscribe c v = .ok c') :
    ∃ id, v = .num id ∧ mapHas c._subscribers id = true ∧
      c' = { c with _subscribers := mapDelete c._subscribers id } := by
  cases v with
  | num id =>
    by_cases hhas : mapHas c._subscribers id = true
    · rw [unsubscribe_num_ok hhas] at h
      injection h with h
      exact ⟨id, rfl, hhas, h.symm⟩
    · rw [unsubscribe_num_missing (by simpa using hhas)] at h
      exact absurd h (by simp)
  | obj s r =>
    rw [unsubscribe_not_num (typeof_obj_ne_num s r)] at h
    exact absurd h (by simp)
  | undef =>
    rw [unsubscribe_not_num (by simp [typeof])] at h
    exact absurd h (by simp)
  | nullV =>
    rw [unsubscribe_not_num (by simp [typeof])] at h
    exact absurd h (by simp)
  | boolV b =>
    rw [unsubscribe_not_num (by simp [typeof])] at h
    exact absurd h (by simp)
  | str s =>
    rw [unsubscribe_not_num (by simp [typeof])] at h
    exact absurd h (by simp)
  | bigintV n =>
    rw [unsubscribe_not_num (by simp [typeof])] at h
    exact absurd h (by simp)
  | sym n =>
    rw [unsubscribe_not_num (by simp [typeof])] at h
    exact absurd h (by simp)

theorem runOps_spec (ops : List Op) : ∀ c : Container,
    (runOps c ops).2 =
      (List.range (countSubs ops)).map (fun j : Nat => c._nextId + (j : Int)) ∧
    (runOps c ops).1._nextId = c._nextId + (countSubs ops : Int) := by
  induction ops with
  | nil => intro c; simp [runOps, countSubs]
  | cons op ops ih =>
    intro c
    cases op with
    | sub cb =>
      have hstep : (subscribe c cb).1._nextId = c._nextId + 1 := rfl
      have hid : (subscribe c cb).2 = c._nextId := rfl
      rw [runOps_sub]
      obtain ⟨ih1, ih2⟩ := ih (subscribe c cb).1
      rw [hstep] at ih1 ih2
      constructor
      · show (subscribe c cb).2 :: (runOps (subscribe c cb).1 ops).2 = _
        rw [ih1, hid, countSubs, List.range_succ_eq_map, List.map_cons,
          List.map_map]
        simp only [Nat.cast_zero, add_zero]
        refine congrArg (fun l => c._nextId :: l) ?_
        refine List.map_congr_left ?_
        intro j _
        simp only [Function.comp_apply, Nat.cast_succ]
        ring
      · show (runOps (subscribe c cb).1 ops).1._nextId = _
        rw [ih2, countSubs]
        push_cast
        ring
    | unsub v =>
      cases huns : unsubscribe c v with
      | ok c' =>
        obtain ⟨id, _, _, hc'⟩ := unsubscribe_ok_frame huns
        have hnext : c'._nextId = c._nextId := by rw [hc']
        rw [runOps_unsub_ok ops huns, countSubs]
        obtain ⟨ih1, ih2⟩ := ih c'
        rw [hnext] at ih1 ih2
        exact ⟨ih1, ih2⟩
      | error e =>
        rw [runOps_unsub_err ops huns, countSubs]
        exact ih c

end SimpleState

namespace SimpleState

theorem mapHas_mapDelete_self {m : List (Option (Int × Callback))} {k : Int}
    (hnd : (activeIds m).Nodup) : mapHas (mapDelete m k) k = false := by
  have hnot : ¬ (mapHas (mapDelete m k) k = true) := by
    rw [mapHas_iff, activeIds_mapDelete]
    exact hnd.not_mem_erase
  cases hb : mapHas (mapDelete m k) k
  · rfl
  · exact absurd hb hnot

/-- Claim C9: the identifiers returned by `subscribe` over any sequence of
subscribe/unsubscribe calls on a freshly constructed container are exactly
0, 1, 2, … in call order; the counter starts at 0 and is bumped once per
subscribe call regardless of interleaved unsubscriptions, so the returned
identifiers are pairwise distinct and never reused. -/
theorem C9_subscription_ids (initial : JSVal) (opts : Option SimpleStateOptions)
    (ops : List Op) :
    (runOps (newSimpleState initial opts).1 ops).2 =
      (List.range (countSubs ops)).map (fun j : Nat => (j : Int)) ∧
    (runOps (newSimpleState initial opts).1 ops).1._nextId =
      (countSubs ops : Int) ∧
    (runOps (newSimpleState initial opts).1 ops).2.Nodup := by
  have h0 : (newSimpleState initial opts).1._nextId = 0 := rfl
  obtain ⟨h1, h2⟩ := runOps_spec ops (newSimpleState initial opts).1
  rw [h0] at h1 h2
  have hids : (runOps (newSimpleState initial opts).1 ops).2 =
      (List.range (countSubs ops)).map (fun j : Nat => (j : Int)) := by
    rw [h1]
    refine List.map_congr_left ?_
    intro j _
    ring
  refine ⟨hids, by rw [h2]; ring, ?_⟩
  rw [hids]
  refine List.Nodup.map ?_ (List.nodup_range _)
  intro x y hxy
  simp only [Nat.cast_inj] at hxy
  exact hxy

/-- Claim C6: `set` throws the IncompatibleType error when the `typeof` of
the input differs from the captured primitive kind, and the
IncompatibleCompositeType error when the input is composite and its
fine-grained kind differs from the captured composite kind; since the
call returns the thrown error instead of a successor container, the stored
value is untouched and no flush is scheduled in either failure case. -/
theorem C6_set_type_errors (c : Container) (v : JSVal) :
    (typeof v ≠ c._type →
      set c v = .error (.incompatibleType c._type (typeof v))) ∧
    (typeof v = c._type → isMutable v = true →
      getMutableDataType v ≠ c._mutableType →
      set c v =
        .error (.incompatibleMutableType c._mutableType (getMutableDataType v))) := by
  constructor
  · intro h1
    rw [set, if_pos h1]
  · intro h1 h2 h3
    rw [set, if_neg (fun hne => hne h1), if_pos ⟨h2, h3⟩]

theorem C6_witness :
    set (newSimpleState (JSVal.num 0) none).1 (JSVal.str "a") =
      .error (.incompatibleType .numberT .stringT) ∧
    set (newSimpleState (JSVal.obj .plain 0) none).1 (JSVal.obj .arr 1) =
      .error (.incompatibleMutableType (some .OBJECT) (some .ARRAY)) :=
  ⟨(C6_set_type_errors (newSimpleState (JSVal.num 0) none).1
      (JSVal.str "a")).1 (by decide),
   (C6_set_type_errors (newSimpleState (JSVal.obj .plain 0) none).1
      (JSVal.obj .arr 1)).2 (by decide) (by decide) (by decide)⟩

/-- Claim C8: `unsubscribe` throws the InvalidUnsubscribeInput error on a
non-numeric input and the InvalidSubscriptionId error (naming the id) on a
numeric id with no live subscription — including ids already removed and
ids never issued; on a live id it removes exactly that subscription (the id
disappears from the registry and the other entries are untouched, in
order). -/
theorem C8_unsubscribe_errors (c : Container) (v : JSVal) (id : Int) :
    (typeof v ≠ .numberT →
      unsubscribe c v = .error (.invalidUnsubscribeInput (typeof v))) ∧
    (mapHas c._subscribers id = false →
      unsubscribe c (.num id) = .error (.invalidSubscriptionId id)) ∧
    (mapHas c._subscribers id = true →
      unsubscribe c (.num id) =
        .ok { c with _subscribers := mapDelete c._subscribers id } ∧
      activeIds (mapDelete c._subscribers id) =
        (activeIds c._subscribers).erase id ∧
      ((activeIds c._subscribers).Nodup →
        mapHas (mapDelete c._subscribers id) id = false)) := by
  refine ⟨unsubscribe_not_num, unsubscribe_num_missing, ?_⟩
  intro hhas
  exact ⟨unsubscribe_num_ok hhas, activeIds_mapDelete _ _,
    fun hnd => mapHas_mapDelete_self hnd⟩

theorem C8_witness :
    unsubscribe (newSimpleState (JSVal.num 0) none).1 (JSVal.str "x") =
      .error (.invalidUnsubscribeInput .stringT) ∧
    unsubscribe (newSimpleState (JSVal.num 0) none).1 (JSVal.num 7) =
      .error (.invalidSubscriptionId 7) ∧
    unsubscribe (subscribe (newSimpleState (JSVal.num 0) none).1 .pure).1
        (JSVal.num 0) =
      .ok { (subscribe (newSimpleState (JSVal.num 0) none).1 .pure).1 with
        _subscribers :=
          mapDelete (subscribe (newSimpleState (JSVal.num 0) none).1
            .pure).1._subscribers 0 } :=
  ⟨(C8_unsubscribe_errors (newSimpleState (JSVal.num 0) none).1
      (JSVal.str "x") 0).1 (by decide),
   (C8_unsubscribe_errors (newSimpleState (JSVal.num 0) none).1
      (JSVal.num 7) 7).2.1 (by decide),
   ((C8_unsubscribe_errors (subscribe (newSimpleState (JSVal.num 0) none).1
      .pure).1 (JSVal.num 0) 0).2.2 (by decide)).1⟩

/-- Claim C7: constructing a container from a value of an unclonable
runtime shape succeeds (the constructor stores the value without attempting
a copy), but every `get` call then throws the CloneFailure error, whose
message starts with (hence contains) "Unable to clone state". -/
theorem C7_unclonable_get (s : ObjShape) (r : Nat) (h : Heap)
    (hfn : s ≠ .fn) (hcl : s.cloneable = false) :
    (newSimpleState (JSVal.obj s r) none).1._state = JSVal.obj s r ∧
    get (newSimpleState (JSVal.obj s r) none).1 h =
      .error (.cloneFailure ("Unable to clone state: " ++ cloneErrorMsg s)) ∧
    ∃ rest, "Unable to clone state: " ++ cloneErrorMsg s =
      "Unable to clone state: " ++ rest := by
  refine ⟨rfl, ?_, ⟨cloneErrorMsg s, rfl⟩⟩
  have hstate : (newSimpleState (JSVal.obj s r) none).1._state =
      JSVal.obj s r := rfl
  have hclone : (newSimpleState (JSVal.obj s r) none).1._shouldClone =
      true := rfl
  have htype : (newSimpleState (JSVal.obj s r) none).1._type = .objectT := by
    show typeof (JSVal.obj s r) = .objectT
    rw [typeof, if_neg hfn]
  have h1 : ¬((newSimpleState (JSVal.obj s r) none).1._shouldClone = false ∨
      isMutable (newSimpleState (JSVal.obj s r) none).1._state = false) := by
    rintro (hx | hx)
    · rw [hclone] at hx
      exact absurd hx (by simp)
    · rw [hstate, isMutable_obj] at hx
      exact absurd hx (by simp)
  have h2 : ¬((newSimpleState (JSVal.obj s r) none).1._type =
      JSType.functionT) := by
    rw [htype]
    simp
  rw [get, share, if_neg h1, if_neg h2, hstate]
  simp [structuredClone, hcl]

theorem C7_witness :
    (ObjShape.promise ≠ ObjShape.fn ∧ ObjShape.promise.cloneable = false) ∧
    get (newSimpleState (JSVal.obj .promise 0) none).1 ⟨fun _ => 0, 1⟩ =
      .error (.cloneFailure
        ("Unable to clone state: " ++ cloneErrorMsg .promise)) :=
  ⟨⟨by decide, by decide⟩,
   (C7_unclonable_get .promise 0 ⟨fun _ => 0, 1⟩ (by decide) (by decide)).2.1⟩

end SimpleState

namespace SimpleState

/-- Counterexample to claim C10 as stated: a container constructed with
`null` has captured kind object, yet `set(null)` on it is a
reference-identical no-op, so NO notification flush is scheduled — the
successor container is the original one, whose dispatch-pending flag is
false — contradicting the claim that set(null) always schedules a flush
for containers of object kind. -/
theorem C10_counterexample :
    set (newSimpleState JSVal.nullV none).1 JSVal.nullV =
      .ok (newSimpleState JSVal.nullV none).1 ∧
    (newSimpleState JSVal.nullV none).1._dispatchScheduled = false := by
  constructor
  · rfl
  · rfl

/-- Claim C10 (amended): on a container whose captured primitive kind is
object, `set(null)` never throws — null passes the `typeof` check and,
not being composite, skips the composite-kind check.  If the stored value
was not already null it is replaced by null and a flush is scheduled; if
it was already null the call is a reference-identical no-op and no flush
is scheduled on its account.  Either way a subsequent `get` returns null. -/
theorem C10_set_null (c : Container) (hc : c._type = .objectT) :
    (∃ c', set c .nullV = .ok c') ∧
    (c._state ≠ .nullV →
      set c .nullV = .ok { c with _state := .nullV, _dispatchScheduled := true }) ∧
    (c._state = .nullV → set c .nullV = .ok c) ∧
    (∀ c' h, set c .nullV = .ok c' → get c' h = .ok (.nullV, h)) := by
  have h1 : ¬(typeof JSVal.nullV ≠ c._type) := by
    rw [hc]
    simp [typeof]
  have h2 : ¬(isMutable JSVal.nullV = true ∧
      getMutableDataType JSVal.nullV ≠ c._mutableType) := by
    rintro ⟨hx, _⟩
    simp [isMutable] at hx
  have hget : ∀ c' h, set c .nullV = .ok c' → get c' h = .ok (.nullV, h) := by
    intro c' h hok
    have hst := set_ok_state hok
    rw [get, share, if_pos (Or.inr (by rw [hst]; simp [isMutable])), hst]
  refine ⟨?_, ?_, ?_, hget⟩
  · by_cases h3 : c._state ≠ JSVal.nullV
    · refine ⟨scheduleDispatch { c with _state := .nullV }, ?_⟩
      rw [set, if_neg h1, if_neg h2, if_pos h3]
    · refine ⟨c, ?_⟩
      rw [set, if_neg h1, if_neg h2, if_neg h3]
  · intro h3
    rw [set, if_neg h1, if_neg h2, if_pos h3, scheduleDispatch_eq]
  · intro h3
    rw [set, if_neg h1, if_neg h2, if_neg (fun hx => hx h3)]

theorem C10_witness :
    ((newSimpleState (JSVal.obj .plain 0) none).1._type = .objectT) ∧
    set (newSimpleState (JSVal.obj .plain 0) none).1 JSVal.nullV =
      .ok { (newSimpleState (JSVal.obj .plain 0) none).1 with
        _state := .nullV, _dispatchScheduled := true } :=
  ⟨by decide,
   (C10_set_null (newSimpleState (JSVal.obj .plain 0) none).1
      (by decide)).2.1 (by decide)⟩

/-- Claim C2: a `set` whose argument is reference-identical to the stored
value is a complete no-op — the successor container is the container
itself, so nothing changes and no flush is scheduled, and if no flush was
already pending the deferred flush step delivers nothing; whereas a `set`
with a different-reference value (deeply equal or not) replaces the stored
value, schedules a flush, and that flush invokes the subscribers. -/
theorem C2_identity_check (c : Container) (v : JSVal) (h : Heap) (fuel : Nat)
    (ht : typeof v = c._type)
    (hm : isMutable v = true → getMutableDataType v = c._mutableType) :
    (v = c._state → set c v = .ok c) ∧
    (v = c._state → c._dispatchScheduled = false →
      runFlush fuel c h = some ⟨c, h, [], none⟩) ∧
    (v ≠ c._state →
      set c v = .ok { c with _state := v, _dispatchScheduled := true }) ∧
    (v ≠ c._state → allPure c._subscribers = true →
      shareTotal { c with _state := v, _dispatchScheduled := true } = true →
      validRefB h v = true →
      ∃ res, runFlush (c._subscribers.length + 1)
          { c with _state := v, _dispatchScheduled := true } h = some res ∧
        res.err = none ∧
        res.events.map Prod.fst = activeIds c._subscribers) := by
  have h1 : ¬(typeof v ≠ c._type) := fun hne => hne ht
  have h2 : ¬(isMutable v = true ∧ getMutableDataType v ≠ c._mutableType) :=
    fun hx => hx.2 (hm hx.1)
  refine ⟨?_, ?_, ?_, ?_⟩
  · intro hv
    rw [set, if_neg h1, if_neg h2, if_neg (fun hx => hx hv.symm)]
  · intro _ hflag
    rw [runFlush, if_neg (by rw [hflag]; simp)]
  · intro hv
    rw [set, if_neg h1, if_neg h2, if_pos (fun hx => hv hx.symm),
      scheduleDispatch_eq]
  · intro _ hp hs hv
    obtain ⟨res, hres, hcont, herr, hmap, _⟩ :=
      runFlush_pure { c with _state := v, _dispatchScheduled := true } h
        hp hs hv rfl
    exact ⟨res, hres, herr, hmap⟩

theorem C2_witness :
    (set (subscribe (newSimpleState (JSVal.obj .plain 0) none).1 .pure).1
        (JSVal.obj .plain 0) =
      .ok (subscribe (newSimpleState (JSVal.obj .plain 0) none).1 .pure).1) ∧
    (set (subscribe (newSimpleState (JSVal.obj .plain 0) none).1 .pure).1
        (JSVal.obj .plain 1) =
      .ok { (subscribe (newSimpleState (JSVal.obj .plain 0) none).1
          .pure).1 with
        _state := JSVal.obj .plain 1, _dispatchScheduled := true }) ∧
    structEqB ⟨fun _ => 5, 2⟩ (JSVal.obj .plain 1) (JSVal.obj .plain 0) = true ∧
    ∃ res, runFlush 2
        { (subscribe (newSimpleState (JSVal.obj .plain 0) none).1
            .pure).1 with
          _state := JSVal.obj .plain 1, _dispatchScheduled := true }
        ⟨fun _ => 5, 2⟩ = some res ∧
      res.err = none ∧
      res.events.map Prod.fst = activeIds (subscribe
        (newSimpleState (JSVal.obj .plain 0) none).1 .pure).1._subscribers := by
  have hc := C2_identity_check
    (subscribe (newSimpleState (JSVal.obj .plain 0) none).1 .pure).1
    (JSVal.obj .plain 0) ⟨fun _ => 5, 2⟩ 2 (by decide) (by decide)
  have hc' := C2_identity_check
    (subscribe (newSimpleState (JSVal.obj .plain 0) none).1 .pure).1
    (JSVal.obj .plain 1) ⟨fun _ => 5, 2⟩ 2 (by decide) (by decide)
  exact ⟨hc.1 (by decide), hc'.2.2.1 (by decide),
    by decide,
    hc'.2.2.2 (by decide) (by decide) (by decide) (by decide)⟩

end SimpleState

namespace SimpleState

/-- Claim C4: a flush invokes the registered (registry-preserving)
subscribers in subscription order — the delivered event ids are exactly the
live registry ids in insertion order — and after unsubscribing an id `b`
the registry is the old order with `b` erased, `b` is no longer present,
and every subsequent flush invokes exactly the remaining subscribers in
that order, so `b` is never invoked again. -/
theorem C4_notification_order (c : Container) (h : Heap) (b : Int)
    (hp : allPure c._subscribers = true) (hs : shareTotal c = true)
    (hv : validRefB h c._state = true) (hd : c._dispatchScheduled = true)
    (hnd : (activeIds c._subscribers).Nodup) :
    (∃ res, runFlush (c._subscribers.length + 1) c h = some res ∧
      res.err = none ∧
      res.events.map Prod.fst = activeIds c._subscribers) ∧
    (∀ c'', unsubscribe c (.num b) = .ok c'' →
      activeIds c''._subscribers = (activeIds c._subscribers).erase b ∧
      b ∉ activeIds c''._subscribers ∧
      ∃ res, runFlush (c''._subscribers.length + 1) c'' h = some res ∧
        res.err = none ∧
        res.events.map Prod.fst = (activeIds c._subscribers).erase b) := by
  constructor
  · obtain ⟨res, hres, _, herr, hmap, _⟩ := runFlush_pure c h hp hs hv hd
    exact ⟨res, hres, herr, hmap⟩
  · intro c'' huns
    obtain ⟨id, hvv, hhas, hc''⟩ := unsubscribe_ok_frame huns
    injection hvv with hid
    subst hid
    have hsubs : c''._subscribers = mapDelete c._subscribers b := by rw [hc'']
    have hact : activeIds c''._subscribers =
        (activeIds c._subscribers).erase b := by
      rw [hsubs, activeIds_mapDelete]
    refine ⟨hact, ?_, ?_⟩
    · rw [hact]
      exact hnd.not_mem_erase
    · have hp'' : allPure c''._subscribers = true := by
        rw [hsubs]
        exact allPure_mapDelete b hp
      have hs'' : shareTotal c'' = true := by rw [hc'']; exact hs
      have hv'' : validRefB h c''._state = true := by rw [hc'']; exact hv
      have hd'' : c''._dispatchScheduled = true := by rw [hc'']; exact hd
      obtain ⟨res, hres, _, herr, hmap, _⟩ := runFlush_pure c'' h hp'' hs'' hv'' hd''
      exact ⟨res, hres, herr, by rw [hmap, hact]⟩

theorem C4_witness :
    ∃ res, runFlush 4
        ⟨.numberT, none, true, false, .num 5,
          [some (0, .pure), some (1, .pure), some (2, .pure)], 3, true⟩
        ⟨fun _ => 0, 0⟩ = some res ∧
      res.err = none ∧
      res.events.map Prod.fst = [0, 1, 2] :=
  (C4_notification_order
    ⟨.numberT, none, true, false, .num 5,
      [some (0, .pure), some (1, .pure), some (2, .pure)], 3, true⟩
    ⟨fun _ => 0, 0⟩ 1 (by decide) (by decide) (by decide) (by decide)
    (by decide)).1

/-- Claim C1: within one synchronous segment, a successful sequence of
`set` calls of which at least one is accepted leaves the container holding
the last written value with one flush pending, the registry untouched, and
`set` itself invokes nobody (the embedding gives `set` no way to run a
callback — delivery happens only in the deferred flush step); when the
flush then runs, each registered subscriber is invoked exactly once, in
order, with a value structurally equal to the last written value — no
intermediate value is ever delivered — and the pending flag is cleared. -/
theorem C1_batched_writes (c₀ c₁ : Container) (vs : List JSVal) (v : JSVal)
    (h : Heap)
    (hp : allPure c₀._subscribers = true)
    (hne : activeIds c₀._subscribers ≠ [])
    (hnd : (activeIds c₀._subscribers).Nodup)
    (hset : setAll c₀ vs = .ok c₁)
    (hlast : vs.getLast? = some v)
    (hchg : c₁._state ≠ c₀._state)
    (hs : shareTotal c₁ = true)
    (hv : validRefB h c₁._state = true) :
    c₁._state = v ∧
    c₁._dispatchScheduled = true ∧
    c₁._subscribers = c₀._subscribers ∧
    ∃ res, runFlush (c₁._subscribers.length + 1) c₁ h = some res ∧
      res.err = none ∧
      res.events.map Prod.fst = activeIds c₀._subscribers ∧
      (res.events.map Prod.fst).Nodup ∧
      res.events ≠ [] ∧
      (∀ ev ∈ res.events, structEqB res.heap ev.2 c₁._state = true) ∧
      res.container._dispatchScheduled = false ∧
      res.container._state = c₁._state := by
  obtain ⟨hsubs, _, _, _, _⟩ := setAll_ok_frame hset
  have hflag : c₁._dispatchScheduled = true := setAll_ok_flag hset hchg
  have hp₁ : allPure c₁._subscribers = true := by rw [hsubs]; exact hp
  refine ⟨setAll_ok_last hset hlast, hflag, hsubs, ?_⟩
  obtain ⟨res, hres, hcont, herr, hmap, hvals⟩ :=
    runFlush_pure c₁ h hp₁ hs hv hflag
  rw [hsubs] at hmap
  refine ⟨res, hres, herr, hmap, by rw [hmap]; exact hnd, ?_, hvals, ?_, ?_⟩
  · intro hnil
    rw [hnil] at hmap
    exact hne hmap.symm
  · rw [hcont]
  · rw [hcont]

theorem C1_witness :
    setAll
      ⟨.numberT, none, true, false, .num 0, [some (0, .pure)], 1, false⟩
      [JSVal.num 1, JSVal.num 2, JSVal.num 3] =
      .ok ⟨.numberT, none, true, false, .num 3, [some (0, .pure)], 1, true⟩ ∧
    ∃ res, runFlush 2
        ⟨.numberT, none, true, false, .num 3, [some (0, .pure)], 1, true⟩
        ⟨fun _ => 0, 0⟩ = some res ∧
      res.err = none ∧
      res.events.map Prod.fst = [0] ∧
      (res.events.map Prod.fst).Nodup ∧
      res.events ≠ [] ∧
      (∀ ev ∈ res.events, structEqB res.heap ev.2
        (⟨.numberT, none, true, false, .num 3, [some (0, .pure)], 1,
          true⟩ : Container)._state = true) ∧
      res.container._dispatchScheduled = false ∧
      res.container._state =
        (⟨.numberT, none, true, false, .num 3, [some (0, .pure)], 1,
          true⟩ : Container)._state :=
  ⟨by rfl,
   (C1_batched_writes
      ⟨.numberT, none, true, false, .num 0, [some (0, .pure)], 1, false⟩
      ⟨.numberT, none, true, false, .num 3, [some (0, .pure)], 1, true⟩
      [JSVal.num 1, JSVal.num 2, JSVal.num 3] (JSVal.num 3) ⟨fun _ => 0, 0⟩
      (by decide) (by decide) (by decide) (by rfl) (by decide) (by decide)
      (by decide) (by decide)).2.2.2⟩

end SimpleState

namespace SimpleState

theorem share_by_ref {c : Container} (h : Heap)
    (hcond : c._shouldClone = false ∨ isMutable c._state = false) :
    share c h = .ok (c._state, h) := by
  rw [share, if_pos hcond]

theorem share_clone_on {c : Container} {s : ObjShape} {r : Nat} (h : Heap)
    (hstate : c._state = JSVal.obj s r) (hclone : c._shouldClone = true)
    (htype : c._type ≠ .functionT) (hcl : s.cloneable = true) :
    share c h = .ok (.obj s h.next,
      ⟨Function.update h.data h.next (h.data r), h.next + 1⟩) := by
  have h1 : ¬(c._shouldClone = false ∨ isMutable c._state = false) := by
    rintro (hx | hx)
    · rw [hclone] at hx
      exact absurd hx (by simp)
    · rw [hstate, isMutable_obj] at hx
      exact absurd hx (by simp)
  rw [share, if_neg h1, if_neg htype, hstate]
  simp [structuredClone, hcl, Heap.alloc]

/-- Counterexample to claim C3 as stated: the claim quantifies over every
container constructed with a composite non-function initial value and
default options, but for an initial value of an unclonable composite shape
(here a promise) `get` throws the CloneFailure error instead of returning a
structurally equal reference-distinct copy. -/
theorem C3_counterexample :
    get (newSimpleState (JSVal.obj .promise 0) none).1 ⟨fun _ => 0, 1⟩ =
      .error (.cloneFailure
        ("Unable to clone state: " ++ cloneErrorMsg .promise)) := by
  rfl

/-- Claim C3 (amended): for every container constructed with a CLONEABLE
composite non-function initial value and default options, `get` returns a
structurally equal but reference-distinct copy, and mutating the returned
copy leaves what a subsequent `get` returns unchanged (it still carries
the original content); with `clone: false` the very same construction
returns the stored value by reference, and mutating it does change what a
subsequent `get` returns. -/
theorem C3_clone_semantics (s : ObjShape) (r : Nat) (h : Heap) (d : Nat)
    (hfn : s ≠ .fn) (hcl : s.cloneable = true) (hr : r < h.next) :
    (get (newSimpleState (JSVal.obj s r) none).1 h =
      .ok (.obj s h.next,
        ⟨Function.update h.data h.next (h.data r), h.next + 1⟩) ∧
     h.next ≠ r ∧
     structEqB ⟨Function.update h.data h.next (h.data r), h.next + 1⟩
       (.obj s h.next) (.obj s r) = true ∧
     (∃ r₂ h₂, get (newSimpleState (JSVal.obj s r) none).1
         ((⟨Function.update h.data h.next (h.data r), h.next + 1⟩ : Heap).write
           h.next d) = .ok (.obj s r₂, h₂) ∧
       h₂.data r₂ = h.data r)) ∧
    (get (newSimpleState (JSVal.obj s r) (some ⟨some false, none⟩)).1 h =
      .ok (.obj s r, h) ∧
     (h.write r d).data r = d ∧
     get (newSimpleState (JSVal.obj s r) (some ⟨some false, none⟩)).1
       (h.write r d) = .ok (.obj s r, h.write r d)) := by
  have hstate : (newSimpleState (JSVal.obj s r) none).1._state =
      JSVal.obj s r := rfl
  have hclone : (newSimpleState (JSVal.obj s r) none).1._shouldClone =
      true := rfl
  have htype : (newSimpleState (JSVal.obj s r) none).1._type ≠
      JSType.functionT := by
    show typeof (JSVal.obj s r) ≠ JSType.functionT
    rw [typeof, if_neg hfn]
    simp
  have hrne : r ≠ h.next := Nat.ne_of_lt hr
  constructor
  · refine ⟨share_clone_on h hstate hclone htype hcl, (Nat.ne_of_lt hr).symm,
      ?_, ?_⟩
    · simp only [structEqB, Bool.and_eq_true, decide_eq_true_eq]
      exact ⟨trivial, by rw [Function.update_same, Function.update_noteq hrne]⟩
    · refine ⟨h.next + 1,
        ⟨Function.update
          (Function.update (Function.update h.data h.next (h.data r))
            h.next d)
          (h.next + 1)
          (Function.update (Function.update h.data h.next (h.data r))
            h.next d r), h.next + 2⟩, ?_, ?_⟩
      · have := @share_clone_on (newSimpleState (JSVal.obj s r) none).1 s r
          ((⟨Function.update h.data h.next (h.data r), h.next + 1⟩ : Heap).write
            h.next d) hstate hclone htype hcl
        rw [get, this]
        rfl
      · show Function.update
            (Function.update (Function.update h.data h.next (h.data r))
              h.next d)
            (h.next + 1)
            (Function.update (Function.update h.data h.next (h.data r))
              h.next d r)
            (h.next + 1) = h.data r
        rw [Function.update_same, Function.update_noteq hrne,
          Function.update_noteq hrne]
  · have hclone' : (newSimpleState (JSVal.obj s r)
        (some ⟨some false, none⟩)).1._shouldClone = false := rfl
    refine ⟨?_, ?_, ?_⟩
    · rw [get, share_by_ref h (Or.inl hclone')]
      rfl
    · show Function.update h.data r d r = d
      rw [Function.update_same]
    · rw [get, share_by_ref (h.write r d) (Or.inl hclone')]
      rfl

theorem C3_witness :
    (ObjShape.plain ≠ ObjShape.fn ∧ ObjShape.plain.cloneable = true ∧
      (0 : Nat) < (1 : Nat)) ∧
    (get (newSimpleState (JSVal.obj .plain 0) none).1 ⟨fun _ => 7, 1⟩ =
      .ok (.obj .plain 1,
        ⟨Function.update (fun _ => 7) 1 ((fun _ : Nat => 7) 0), 2⟩) ∧
     (1 : Nat) ≠ 0 ∧
     structEqB ⟨Function.update (fun _ => 7) 1 ((fun _ : Nat => 7) 0), 2⟩
       (.obj .plain 1) (.obj .plain 0) = true ∧
     (∃ r₂ h₂, get (newSimpleState (JSVal.obj .plain 0) none).1
         ((⟨Function.update (fun _ => 7) 1 ((fun _ : Nat => 7) 0),
           2⟩ : Heap).write 1 42) = .ok (.obj .plain r₂, h₂) ∧
       h₂.data r₂ = (fun _ : Nat => 7) 0)) ∧
    (get (newSimpleState (JSVal.obj .plain 0)
        (some ⟨some false, none⟩)).1 ⟨fun _ => 7, 1⟩ =
      .ok (.obj .plain 0, ⟨fun _ => 7, 1⟩) ∧
     ((⟨fun _ => 7, 1⟩ : Heap).write 0 42).data 0 = 42 ∧
     get (newSimpleState (JSVal.obj .plain 0)
        (some ⟨some false, none⟩)).1 ((⟨fun _ => 7, 1⟩ : Heap).write 0 42) =
      .ok (.obj .plain 0, (⟨fun _ => 7, 1⟩ : Heap).write 0 42)) :=
  ⟨⟨by decide, by decide, by decide⟩,
   (C3_clone_semantics .plain 0 ⟨fun _ => 7, 1⟩ 42 (by decide) (by decide)
      (by decide)).1,
   (C3_clone_semantics .plain 0 ⟨fun _ => 7, 1⟩ 42 (by decide) (by decide)
      (by decide)).2⟩

end SimpleState

namespace SimpleState

/-- Counterexample to claim C5 as stated: the dispatch loop iterates the
live registry (`Map.prototype.forEach` visits entries appended during
iteration), so a subscriber registered from inside a callback during a
flush IS invoked in that same flush.  Concretely: a container whose only
subscriber (id 0) subscribes a new callback when invoked produces the
event trace [(0, 0), (1, 0)] in a single flush — subscriber 1, which was
not registered when the flush began, is invoked — whereas the claim says
the flush invokes exactly the subscribers registered at flush start,
i.e. only id 0. -/
theorem C5_counterexample :
    (runFlush 3 ⟨.numberT, none, true, false, .num 0,
        [some (0, .doSub .pure)], 1, true⟩ ⟨fun _ => 0, 0⟩).map
      DispatchResult.events = some [(0, JSVal.num 0), (1, JSVal.num 0)] := by
  rfl

/-- Claim C5 (amended): registry changes made from inside a subscriber
callback take effect immediately within the current flush, not at the next
flush: a subscriber added mid-flush is invoked later in that same flush
(the flush of a lone subscriber that subscribes a fresh callback delivers
two events, the second to the just-added id), and a subscriber removed
mid-flush before its slot is reached is skipped in that flush (the flush of
a first subscriber that unsubscribes the second delivers one event, to the
first subscriber only). -/
theorem C5_midflush_registry
    (t t₂ : JSType) (mt mt₂ : Option MutableType) (sc sc₂ sw sw₂ : Bool)
    (st st₂ : JSVal) (nid nid₂ a b : Int) (h h₂ : Heap)
    (hs : shareTotal ⟨t, mt, sc, sw, st,
      [some (a, Callback.doSub Callback.pure)], nid, true⟩ = true)
    (hna : a ≠ nid)
    (hs₂ : shareTotal ⟨t₂, mt₂, sc₂, sw₂, st₂,
      [some (a, Callback.doUnsub b), some (b, Callback.pure)], nid₂,
      true⟩ = true)
    (hab : a ≠ b) :
    (∃ res, runFlush 3 (⟨t, mt, sc, sw, st,
        [some (a, Callback.doSub Callback.pure)], nid, true⟩ : Container) h =
        some res ∧
      res.err = none ∧ res.events.map Prod.fst = [a, nid] ∧
      activeIds res.container._subscribers = [a, nid]) ∧
    (∃ res, runFlush 3 (⟨t₂, mt₂, sc₂, sw₂, st₂,
        [some (a, Callback.doUnsub b), some (b, Callback.pure)], nid₂,
        true⟩ : Container) h₂ = some res ∧
      res.err = none ∧ res.events.map Prod.fst = [a]) := by
  constructor
  · obtain ⟨v₁, h₁, hsh₁, _, _, _⟩ := share_total_spec
      (⟨t, mt, sc, sw, st, [some (a, Callback.doSub Callback.pure)], nid,
        false⟩ : Container) h hs
    have hrc : runCallback (Callback.doSub Callback.pure)
        (⟨t, mt, sc, sw, st, [some (a, Callback.doSub Callback.pure)], nid,
          false⟩ : Container) =
        ⟨t, mt, sc, sw, st,
          [some (a, Callback.doSub Callback.pure), some (nid, Callback.pure)],
          nid + 1, false⟩ := by
      simp [runCallback, subscribe, mapSet, mapHas, hna]
    obtain ⟨v₂, h₂', hsh₂, _, _, _⟩ := share_total_spec
      (⟨t, mt, sc, sw, st,
        [some (a, Callback.doSub Callback.pure), some (nid, Callback.pure)],
        nid + 1, false⟩ : Container) h₁ hs
    refine ⟨⟨⟨t, mt, sc, sw, st,
        [some (a, Callback.doSub Callback.pure), some (nid, Callback.pure)],
        nid + 1, false⟩, h₂', [(a, v₁), (nid, v₂)], none⟩,
      ?_, rfl, rfl, by simp [activeIds]⟩
    show dispatchLoop (2 + 1) 0
      (⟨t, mt, sc, sw, st, [some (a, Callback.doSub Callback.pure)], nid,
        false⟩ : Container) h [] = _
    rw [@dispatchLoop_step_some 2 0
      (⟨t, mt, sc, sw, st, [some (a, Callback.doSub Callback.pure)], nid,
        false⟩ : Container) h h₁ [] (by simp) a
      (Callback.doSub Callback.pure) rfl v₁ hsh₁, hrc]
    show dispatchLoop (1 + 1) 1
      (⟨t, mt, sc, sw, st,
        [some (a, Callback.doSub Callback.pure), some (nid, Callback.pure)],
        nid + 1, false⟩ : Container) h₁ [(a, v₁)] = _
    rw [@dispatchLoop_step_some 1 1
      (⟨t, mt, sc, sw, st,
        [some (a, Callback.doSub Callback.pure), some (nid, Callback.pure)],
        nid + 1, false⟩ : Container) h₁ h₂' [(a, v₁)] (by simp) nid
      Callback.pure rfl v₂ hsh₂]
    show dispatchLoop (0 + 1) 2
      (⟨t, mt, sc, sw, st,
        [some (a, Callback.doSub Callback.pure), some (nid, Callback.pure)],
        nid + 1, false⟩ : Container) h₂' [(a, v₁), (nid, v₂)] = _
    exact dispatchLoop_stop (by simp)
  · obtain ⟨v₁, h₁, hsh₁, _, _, _⟩ := share_total_spec
      (⟨t₂, mt₂, sc₂, sw₂, st₂,
        [some (a, Callback.doUnsub b), some (b, Callback.pure)], nid₂,
        false⟩ : Container) h₂ hs₂
    have hrc : runCallback (Callback.doUnsub b)
        (⟨t₂, mt₂, sc₂, sw₂, st₂,
          [some (a, Callback.doUnsub b), some (b, Callback.pure)], nid₂,
          false⟩ : Container) =
        ⟨t₂, mt₂, sc₂, sw₂, st₂, [some (a, Callback.doUnsub b), none], nid₂,
          false⟩ := by
      have hhas : mapHas ([some (a, Callback.doUnsub b),
          some (b, Callback.pure)] : List (Option (Int × Callback))) b =
          true := by
        simp [mapHas]
      simp only [runCallback,
        @unsubscribe_num_ok (⟨t₂, mt₂, sc₂, sw₂, st₂,
          [some (a, Callback.doUnsub b), some (b, Callback.pure)], nid₂,
          false⟩ : Container) b hhas]
      simp [mapDelete, hab]
    refine ⟨⟨⟨t₂, mt₂, sc₂, sw₂, st₂, [some (a, Callback.doUnsub b), none],
        nid₂, false⟩, h₁, [(a, v₁)], none⟩, ?_, rfl, rfl⟩
    show dispatchLoop (2 + 1) 0
      (⟨t₂, mt₂, sc₂, sw₂, st₂,
        [some (a, Callback.doUnsub b), some (b, Callback.pure)], nid₂,
        false⟩ : Container) h₂ [] = _
    rw [@dispatchLoop_step_some 2 0
      (⟨t₂, mt₂, sc₂, sw₂, st₂,
        [some (a, Callback.doUnsub b), some (b, Callback.pure)], nid₂,
        false⟩ : Container) h₂ h₁ [] (by simp) a (Callback.doUnsub b) rfl
      v₁ hsh₁, hrc]
    show dispatchLoop (1 + 1) 1
      (⟨t₂, mt₂, sc₂, sw₂, st₂, [some (a, Callback.doUnsub b), none], nid₂,
        false⟩ : Container) h₁ [(a, v₁)] = _
    rw [@dispatchLoop_step_none 1 1
      (⟨t₂, mt₂, sc₂, sw₂, st₂, [some (a, Callback.doUnsub b), none], nid₂,
        false⟩ : Container) h₁ [(a, v₁)] (by simp) rfl]
    show dispatchLoop (0 + 1) 2
      (⟨t₂, mt₂, sc₂, sw₂, st₂, [some (a, Callback.doUnsub b), none], nid₂,
        false⟩ : Container) h₁ [(a, v₁)] = _
    exact dispatchLoop_stop (by simp)

theorem C5_witness :
    (∃ res, runFlush 3 (⟨.numberT, none, true, false, .num 0,
        [some (0, Callback.doSub Callback.pure)], 1, true⟩ : Container)
        ⟨fun _ => 0, 0⟩ = some res ∧
      res.err = none ∧ res.events.map Prod.fst = [0, 1] ∧
      activeIds res.container._subscribers = [0, 1]) ∧
    (∃ res, runFlush 3 (⟨.numberT, none, true, false, .num 0,
        [some (0, Callback.doUnsub 1), some (1, Callback.pure)], 2,
        true⟩ : Container) ⟨fun _ => 0, 0⟩ = some res ∧
      res.err = none ∧ res.events.map Prod.fst = [0]) :=
  C5_midflush_registry .numberT .numberT none none true true false false
    (.num 0) (.num 0) 1 2 0 1 ⟨fun _ => 0, 0⟩ ⟨fun _ => 0, 0⟩
    (by decide) (by decide) (by decide) (by decide)

end SimpleState
